import Mathlib

/-!
Verification development for the GoQuant trade-simulator core (`src/main.py`).

The Python core is shallowly embedded: machine floats become exact rationals
(`ℚ`), real-valued model outputs (`exp`, `sqrt`) live in `ℝ`, Python
exceptions (`ZeroDivisionError`, `ValueError`, `KeyError`) become explicit
`Except`/error results, and in-place mutation of the `OrderBook` object is
explicit state passing: `update` returns the (possibly partially mutated)
object together with the error raised, if any, mirroring the statement order
of the Python method.
-/

set_option maxRecDepth 100000

namespace GoQuant

/-- A raw JSON value standing where Python applies `float(...)`: either a
value `float` parses to a number, or one on which `float` raises. -/
inductive Jval where
  | num (q : ℚ)
  | nonNumeric
deriving DecidableEq, Repr

/-- Python `float(v)`: numeric values parse, anything else raises. -/
def Jval.toFloat : Jval → Option ℚ
  | .num q => some q
  | .nonNumeric => none

/-- The raw `timestamp` field. `datetime.fromisoformat` either parses it to a
point in time (modelled as a rational) or raises `ValueError`. -/
inductive TsRaw where
  | valid (t : ℚ)
  | malformed
deriving DecidableEq

/-- The incoming snapshot dictionary. `none` on `symbol`/`exchange` models a
missing key (Python `KeyError` on `data["symbol"]`/`data["exchange"]`). -/
structure RawSnapshot where
  timestamp : TsRaw
  symbol : Option String
  exchange : Option String
  asks : List (Jval × Jval)
  bids : List (Jval × Jval)
deriving DecidableEq

/-- `OrderBook` state: `src/main.py` lines 22-33.  Price levels are
`(price, quantity)` pairs of rationals. -/
structure OrderBook where
  asks : List (ℚ × ℚ)
  bids : List (ℚ × ℚ)
  timestamp : Option ℚ
  symbol : String
  exchange : String
  last_update_time : ℚ
  price_history : List (ℚ × ℚ)
  spread_history : List (ℚ × ℚ)
  mid_price_history : List ℚ
  volume_history : List (ℚ × ℚ)
deriving DecidableEq

/-- `OrderBook.__init__` (t0 is the `time.time()` value at construction). -/
def OrderBook.init (t0 : ℚ) : OrderBook :=
  { asks := [], bids := [], timestamp := none, symbol := "", exchange := "",
    last_update_time := t0, price_history := [], spread_history := [],
    mid_price_history := [], volume_history := [] }

def MAX_ORDERBOOK_LEVELS : Nat := 50

/-- The distinct exception sites inside `OrderBook.update` (Python raises
`ValueError`/`KeyError`; the spec groups them as `MalformedSnapshot`). -/
inductive UpdateError where
  | malformedTimestamp
  | missingSymbol
  | missingExchange
  | badAskLevel
  | badBidLevel
deriving DecidableEq

/-- One `(float(price), float(qty))` conversion of a level. -/
def parseLevel : Jval × Jval → Option (ℚ × ℚ)
  | (p, q) => do
    let pv ← p.toFloat
    let qv ← q.toFloat
    some (pv, qv)

/-- The list comprehension of `update`: all levels convert or the whole
comprehension raises (and the attribute is not assigned). -/
def parseLevels : List (Jval × Jval) → Option (List (ℚ × ℚ))
  | [] => some []
  | l :: ls =>
    match parseLevel l, parseLevels ls with
    | some v, some vs => some (v :: vs)
    | _, _ => none

/-- `self.asks.sort(key=lambda x: x[0])`: stable sort, ascending by price.
(`insertionSort` is a stable sort, like Python's Timsort; only the order of
equal-priced duplicates could differ, which no property here depends on.) -/
def sortAsks (l : List (ℚ × ℚ)) : List (ℚ × ℚ) :=
  l.insertionSort fun a b => a.1 ≤ b.1

/-- `self.bids.sort(key=lambda x: x[0], reverse=True)`: descending by price. -/
def sortBids (l : List (ℚ × ℚ)) : List (ℚ × ℚ) :=
  l.insertionSort fun a b => b.1 ≤ a.1

/-- Python slice `l[-n:]`. -/
def takeLast {α : Type} (n : Nat) (l : List α) : List α := l.drop (l.length - n)

/-- `l[0][0]`, defined (as 0) on an empty list; only used under non-emptiness
guards, exactly as in the Python code. -/
def headPrice (l : List (ℚ × ℚ)) : ℚ := (l.headD (0, 0)).1

/-- `mid_price = (self.asks[0][0] + self.bids[0][0]) / 2`. -/
def midOf (ob : OrderBook) : ℚ := (headPrice ob.asks + headPrice ob.bids) / 2

/-- `spread = best_ask - best_bid`. -/
def spreadOf (ob : OrderBook) : ℚ := headPrice ob.asks - headPrice ob.bids

/-- Near-touch volume of lines 59-62: quantities within `mid * 0.001` of the
mid price, ask side plus bid side. -/
def nearVolOf (ob : OrderBook) : ℚ :=
  let mid := midOf ob
  let threshold := mid * (1 / 1000)
  (((ob.asks.filter fun l => l.1 ≤ mid + threshold).map Prod.snd).sum) +
    (((ob.bids.filter fun l => mid - threshold ≤ l.1).map Prod.snd).sum)

/-- Lines 49-69 of `update`: if both sides are non-empty, append to the four
history series and trim each to the last 300 entries when the capacity is
exceeded; otherwise leave the histories alone. -/
def appendHistories (ob : OrderBook) (now : ℚ) : OrderBook :=
  if ob.asks = [] ∨ ob.bids = [] then ob
  else if 300 < (ob.price_history ++ [(now, midOf ob)]).length then
    { ob with
      price_history := takeLast 300 (ob.price_history ++ [(now, midOf ob)]),
      spread_history := takeLast 300 (ob.spread_history ++ [(now, spreadOf ob)]),
      mid_price_history := takeLast 300 (ob.mid_price_history ++ [midOf ob]),
      volume_history := takeLast 300 (ob.volume_history ++ [(now, nearVolOf ob)]) }
  else
    { ob with
      price_history := ob.price_history ++ [(now, midOf ob)],
      spread_history := ob.spread_history ++ [(now, spreadOf ob)],
      mid_price_history := ob.mid_price_history ++ [midOf ob],
      volume_history := ob.volume_history ++ [(now, nearVolOf ob)] }

/-- `OrderBook.update` (lines 35-69).  Python mutates `self` field by field
and an exception aborts mid-way, so the result is the state as mutated up to
the failing statement, paired with the error (if any). `now` is the value of
`time.time()`. -/
def OrderBook.update (ob : OrderBook) (d : RawSnapshot) (now : ℚ) :
    OrderBook × Option UpdateError :=
  match d.timestamp with
  | .malformed => (ob, some .malformedTimestamp)
  | .valid t =>
    match d.symbol with
    | none => ({ ob with timestamp := some t }, some .missingSymbol)
    | some sym =>
      match d.exchange with
      | none => ({ ob with timestamp := some t, symbol := sym }, some .missingExchange)
      | some ex =>
        match parseLevels (d.asks.take MAX_ORDERBOOK_LEVELS) with
        | none =>
          ({ ob with timestamp := some t, symbol := sym, exchange := ex },
           some .badAskLevel)
        | some rawAsks =>
          match parseLevels (d.bids.take MAX_ORDERBOOK_LEVELS) with
          | none =>
            ({ ob with
                timestamp := some t, symbol := sym, exchange := ex,
                asks := rawAsks }, some .badBidLevel)
          | some rawBids =>
            (appendHistories
              { ob with
                timestamp := some t, symbol := sym, exchange := ex,
                asks := sortAsks rawAsks, bids := sortBids rawBids,
                last_update_time := now } now, none)

/-- States reachable from a fresh `OrderBook` by any sequence of `update`
calls (failed updates included: the partially mutated object stays live). -/
inductive Reachable : OrderBook → Prop where
  | init (t0 : ℚ) : Reachable (OrderBook.init t0)
  | step {ob : OrderBook} (d : RawSnapshot) (now : ℚ) :
      Reachable ob → Reachable (ob.update d now).1

/-- A Python numeric exception (`ZeroDivisionError`). -/
inductive NumErr where
  | divByZero
deriving DecidableEq

instance exceptDecEq {ε α : Type} [DecidableEq ε] [DecidableEq α] :
    DecidableEq (Except ε α) := fun a b =>
  match a, b with
  | .error x, .error y =>
    if h : x = y then .isTrue (by rw [h]) else .isFalse (by simp [h])
  | .ok x, .ok y =>
    if h : x = y then .isTrue (by rw [h]) else .isFalse (by simp [h])
  | .error _, .ok _ => .isFalse (by simp)
  | .ok _, .error _ => .isFalse (by simp)

/-- The walk loop of `get_liquidity_at_level` (lines 80-90), carrying
`remaining_amount`, `executed_quantity` and `total_cost`; `take_volume / price`
raises `ZeroDivisionError` on a zero price. -/
def walkLevels : List (ℚ × ℚ) → ℚ → ℚ → ℚ → Except NumErr (ℚ × ℚ)
  | [], _, executed, cost => .ok (executed, cost)
  | (price, qty) :: rest, remaining, executed, cost =>
    if remaining ≤ 0 then .ok (executed, cost)
    else
      let level_volume := price * qty
      let take_volume := min remaining level_volume
      if price = 0 then .error .divByZero
      else
        let take_quantity := take_volume / price
        walkLevels rest (remaining - take_volume) (executed + take_quantity)
          (cost + take_quantity * price)

/-- The side the walker targets: `self.asks if side.lower() == "buy" else
self.bids`. -/
def sideLevels (ob : OrderBook) (side : String) : List (ℚ × ℚ) :=
  if side.toLower = "buy" then ob.asks else ob.bids

/-- `OrderBook.get_liquidity_at_level` (lines 71-93): returns
`(avg_price, executed_quantity)`. -/
def OrderBook.get_liquidity_at_level (ob : OrderBook) (usd_amount : ℚ)
    (side : String) : Except NumErr (ℚ × ℚ) :=
  if ob.asks = [] ∨ ob.bids = [] then .ok (0, 0)
  else do
    let (executed_quantity, total_cost) ← walkLevels (sideLevels ob side) usd_amount 0 0
    let avg_price := if 0 < executed_quantity then total_cost / executed_quantity else 0
    return (avg_price, executed_quantity)

/-- `MarketImpactCalculator.calculate_slippage` (lines 104-115).  Note the
side test here is the case-sensitive `side == "buy"`, unlike the walker. -/
def calculate_slippage (ob : OrderBook) (quantity : ℚ) (side : String) :
    Except NumErr ℚ :=
  if ob.asks = [] ∨ ob.bids = [] then .ok 0
  else do
    let mid_price := (headPrice ob.asks + headPrice ob.bids) / 2
    let (expected_price, _) ← ob.get_liquidity_at_level quantity side
    if expected_price = 0 then return 0
    else if side = "buy" then
      if mid_price = 0 then throw .divByZero
      else return ((expected_price / mid_price) - 1) * 100
    else
      return ((mid_price / expected_price) - 1) * 100

/-- Lines 123-128 of `calculate_market_impact`: the daily volume estimate,
taken from the last 10 near-touch-volume samples only when MORE than 10
samples exist, else `market_cap * 0.05`. -/
def daily_volume_estimate (ob : OrderBook) (market_cap : ℚ) : ℚ :=
  if 10 < ob.volume_history.length then
    let recent_volumes := (takeLast 10 ob.volume_history).map Prod.snd
    let avg_tick_volume := recent_volumes.sum / (recent_volumes.length : ℚ)
    avg_tick_volume * 86400
  else market_cap * (5 / 100)

/-- `sigma = self.volatility if self.volatility > 0 else 0.02`. -/
def sigmaOf (volatility : ℚ) : ℚ := if 0 < volatility then volatility else 1 / 50

/-- `MarketImpactCalculator.calculate_market_impact` (lines 117-137).  The
Python float division `quantity_in_usd / daily_volume_estimate` raises
`ZeroDivisionError` when the estimate is zero; `np.sqrt` is `Real.sqrt`. -/
noncomputable def calculate_market_impact (ob : OrderBook)
    (volatility quantity market_cap : ℚ) : Except NumErr ℝ :=
  if ob.mid_price_history = [] then .ok 0
  else
    let dve := daily_volume_estimate ob market_cap
    if dve = 0 then .error .divByZero
    else
      .ok (((sigmaOf volatility : ℚ) : ℝ) * Real.sqrt (1 / 86400) *
        Real.sqrt (((quantity / dve : ℚ) : ℝ)) * 100)

/-- The logistic taker share as a function of the relative size:
`100 / (1 + exp(relative_size - 1))`. -/
noncomputable def takerOfRel (r : ℝ) : ℝ := 100 / (1 + Real.exp (r - 1))

/-- `relative_size = (best_ask_size + best_bid_size) / (2 * quantity)` with
`best_*_size = levels[0][1] * levels[0][0]`. -/
def relative_size (ob : OrderBook) (quantity : ℚ) : ℚ :=
  let best_ask_size := (ob.asks.headD (0, 0)).2 * (ob.asks.headD (0, 0)).1
  let best_bid_size := (ob.bids.headD (0, 0)).2 * (ob.bids.headD (0, 0)).1
  (best_ask_size + best_bid_size) / (2 * quantity)

/-- `MarketImpactCalculator.estimate_maker_taker_proportion` (lines 139-152):
result is `(maker_pct, taker_pct)`; the division by `2 * quantity` raises on
a zero quantity. -/
noncomputable def estimate_maker_taker_proportion (ob : OrderBook) (quantity : ℚ) :
    Except NumErr (ℝ × ℝ) :=
  if ob.asks = [] ∨ ob.bids = [] then .ok (0, 100)
  else if quantity = 0 then .error .divByZero
  else
    let taker_pct := takerOfRel ((relative_size ob quantity : ℚ) : ℝ)
    .ok (100 - taker_pct, taker_pct)

/-- The `fee_structure` lookup keyed on `fee_tier.lower()`, with
`dict.get`'s fallback to the `"vip0"` entry (lines 155-164). -/
def feeRatesLower (t : String) : ℚ × ℚ :=
  if t = "vip0" then (8 / 10000, 10 / 10000)
  else if t = "vip1" then (7 / 10000, 9 / 10000)
  else if t = "vip2" then (6 / 10000, 8 / 10000)
  else if t = "vip3" then (5 / 10000, 7 / 10000)
  else if t = "vip4" then (3 / 10000, 5 / 10000)
  else if t = "vip5" then (0, 3 / 10000)
  else (8 / 10000, 10 / 10000)

def feeRates (fee_tier : String) : ℚ × ℚ := feeRatesLower fee_tier.toLower

/-- `MarketImpactCalculator.calculate_fees` (lines 154-173). -/
noncomputable def calculate_fees (ob : OrderBook) (quantity : ℚ)
    (fee_tier : String) : Except NumErr ℝ := do
  let maker_fee := (feeRates fee_tier).1
  let taker_fee := (feeRates fee_tier).2
  let (maker_pct, taker_pct) ← estimate_maker_taker_proportion ob quantity
  let weighted_fee_rate := maker_pct / 100 * ((maker_fee : ℚ) : ℝ) +
    taker_pct / 100 * ((taker_fee : ℚ) : ℝ)
  return weighted_fee_rate * 100

/-- The result dictionary of `get_net_cost`. -/
structure CostReport where
  slippage_pct : ℝ
  fee_pct : ℝ
  market_impact_pct : ℝ
  maker_pct : ℝ
  taker_pct : ℝ
  net_cost_pct : ℝ

/-- `MarketImpactCalculator.get_net_cost` (lines 175-191), evaluating the
sub-computations in the Python statement order (so the first exception
raised is the one that propagates). -/
noncomputable def get_net_cost (ob : OrderBook) (volatility quantity : ℚ)
    (fee_tier side : String) : Except NumErr CostReport := do
  let slippage_pct ← calculate_slippage ob quantity side
  let fee_pct ← calculate_fees ob quantity fee_tier
  let market_impact_pct ← calculate_market_impact ob volatility quantity ((10 : ℚ) ^ 10)
  let (maker_pct, taker_pct) ← estimate_maker_taker_proportion ob quantity
  return { slippage_pct := ((slippage_pct : ℚ) : ℝ), fee_pct := fee_pct,
           market_impact_pct := market_impact_pct,
           maker_pct := maker_pct, taker_pct := taker_pct,
           net_cost_pct := ((slippage_pct : ℚ) : ℝ) + fee_pct + market_impact_pct }

/-! Concrete snapshots and books used to instantiate the theorems. -/

/-- A snapshot whose timestamp `fromisoformat` rejects. -/
def snapMalTs : RawSnapshot :=
  { timestamp := .malformed, symbol := some "BTC-USDT-SWAP", exchange := some "OKX",
    asks := [], bids := [] }

/-- Valid timestamp/symbol/exchange, but a non-numeric ask price. -/
def snapBadAsk : RawSnapshot :=
  { timestamp := .valid 1, symbol := some "BTC-USDT-SWAP", exchange := some "OKX",
    asks := [(Jval.nonNumeric, Jval.num 1)], bids := [] }

/-- A fully valid two-sided snapshot whose spread is so wide that no level is
within 0.1% of mid: its near-touch volume sample is 0. -/
def snapZ : RawSnapshot :=
  { timestamp := .valid 1, symbol := some "BTC-USDT-SWAP", exchange := some "OKX",
    asks := [(Jval.num 200, Jval.num 5)], bids := [(Jval.num 100, Jval.num 5)] }

/-- A valid two-sided snapshot contributing a near-touch volume sample of 1. -/
def snapA : RawSnapshot :=
  { timestamp := .valid 1, symbol := some "BTC-USDT-SWAP", exchange := some "OKX",
    asks := [(Jval.num 100, Jval.num (1 / 2))],
    bids := [(Jval.num 100, Jval.num (1 / 2))] }

/-- `n` consecutive `update` calls with the same snapshot. -/
def iterUpd (d : RawSnapshot) (now : ℚ) : Nat → OrderBook
  | 0 => OrderBook.init 0
  | n + 1 => ((iterUpd d now n).update d now).1

/-- The snapshot of the C9 scenario. -/
def snap9 : RawSnapshot :=
  { timestamp := .valid 1, symbol := some "BTC-USDT-SWAP", exchange := some "OKX",
    asks := [(Jval.num 100, Jval.num 2), (Jval.num 101, Jval.num 3)],
    bids := [(Jval.num 99, Jval.num 2), (Jval.num 98, Jval.num 3)] }

/-- The C9 book `asks=[(100,2),(101,3)]`, `bids=[(99,2),(98,3)]`. -/
def book9 : OrderBook := ((OrderBook.init 0).update snap9 1).1

/-- 51 ask levels with prices 100..149 followed by 99: the best-priced level
arrives last. -/
def snap51 : RawSnapshot :=
  { timestamp := .valid 1, symbol := some "BTC-USDT-SWAP", exchange := some "OKX",
    asks := [
      (Jval.num 100, Jval.num 1),
      (Jval.num 101, Jval.num 1),
      (Jval.num 102, Jval.num 1),
      (Jval.num 103, Jval.num 1),
      (Jval.num 104, Jval.num 1),
      (Jval.num 105, Jval.num 1),
      (Jval.num 106, Jval.num 1),
      (Jval.num 107, Jval.num 1),
      (Jval.num 108, Jval.num 1),
      (Jval.num 109, Jval.num 1),
      (Jval.num 110, Jval.num 1),
      (Jval.num 111, Jval.num 1),
      (Jval.num 112, Jval.num 1),
      (Jval.num 113, Jval.num 1),
      (Jval.num 114, Jval.num 1),
      (Jval.num 115, Jval.num 1),
      (Jval.num 116, Jval.num 1),
      (Jval.num 117, Jval.num 1),
      (Jval.num 118, Jval.num 1),
      (Jval.num 119, Jval.num 1),
      (Jval.num 120, Jval.num 1),
      (Jval.num 121, Jval.num 1),
      (Jval.num 122, Jval.num 1),
      (Jval.num 123, Jval.num 1),
      (Jval.num 124, Jval.num 1),
      (Jval.num 125, Jval.num 1),
      (Jval.num 126, Jval.num 1),
      (Jval.num 127, Jval.num 1),
      (Jval.num 128, Jval.num 1),
      (Jval.num 129, Jval.num 1),
      (Jval.num 130, Jval.num 1),
      (Jval.num 131, Jval.num 1),
      (Jval.num 132, Jval.num 1),
      (Jval.num 133, Jval.num 1),
      (Jval.num 134, Jval.num 1),
      (Jval.num 135, Jval.num 1),
      (Jval.num 136, Jval.num 1),
      (Jval.num 137, Jval.num 1),
      (Jval.num 138, Jval.num 1),
      (Jval.num 139, Jval.num 1),
      (Jval.num 140, Jval.num 1),
      (Jval.num 141, Jval.num 1),
      (Jval.num 142, Jval.num 1),
      (Jval.num 143, Jval.num 1),
      (Jval.num 144, Jval.num 1),
      (Jval.num 145, Jval.num 1),
      (Jval.num 146, Jval.num 1),
      (Jval.num 147, Jval.num 1),
      (Jval.num 148, Jval.num 1),
      (Jval.num 149, Jval.num 1),
      (Jval.num 99, Jval.num 1)],
    bids := [(Jval.num 98, Jval.num 1)] }

def upd51 : OrderBook := ((OrderBook.init 0).update snap51 0).1

/-- Ask side holds 200 USD of depth but the bid side is empty. -/
def bookOneSided : OrderBook := { OrderBook.init 0 with asks := [(100, 2)] }

/-- A small two-sided book for witnesses. -/
def book3w : OrderBook :=
  { OrderBook.init 0 with asks := [(100, 2)], bids := [(99, 1)] }

/-- A book holding exactly 10 near-touch-volume samples, each equal to 1
(as produced by 10 two-sided updates of `snapA`). -/
def bookTen : OrderBook :=
  { OrderBook.init 0 with
    asks := [(100, 1 / 2)], bids := [(100, 1 / 2)],
    price_history := List.replicate 10 (1, 100),
    spread_history := List.replicate 10 (1, 0),
    mid_price_history := List.replicate 10 100,
    volume_history := List.replicate 10 (1, 1) }

/-- The invariant tying the four history series together. -/
def histOK (ob : OrderBook) : Prop :=
  ob.price_history.length = ob.spread_history.length ∧
  ob.price_history.length = ob.mid_price_history.length ∧
  ob.price_history.length = ob.volume_history.length ∧
  ob.price_history.length ≤ 300

/-! ### Helper lemmas -/

theorem parseLevels_length : ∀ (l : List (Jval × Jval)) (r : List (ℚ × ℚ)),
    parseLevels l = some r → r.length = l.length
  | [], r, h => by
    simp only [parseLevels, Option.some.injEq] at h
    simp [← h]
  | x :: xs, r, h => by
    unfold parseLevels at h
    cases hv : parseLevel x with
    | none => rw [hv] at h; exact absurd h (by simp)
    | some v =>
      cases hvs : parseLevels xs with
      | none => rw [hv, hvs] at h; exact absurd h (by simp)
      | some vs =>
        rw [hv, hvs] at h
        simp only [Option.some.injEq] at h
        simp [← h, parseLevels_length xs vs hvs]

theorem takeLast_eq_self {α : Type} (n : Nat) (l : List α) (h : l.length ≤ n) :
    takeLast n l = l := by
  simp [takeLast, Nat.sub_eq_zero_of_le h]

theorem takeLast_length {α : Type} (n : Nat) (l : List α) :
    (takeLast n l).length = min n l.length := by
  simp [takeLast]
  omega

theorem sortAsks_pairwise (l : List (ℚ × ℚ)) :
    (sortAsks l).Pairwise fun a b => a.1 ≤ b.1 := by
  haveI : IsTotal (ℚ × ℚ) fun a b => a.1 ≤ b.1 := ⟨fun a b => le_total a.1 b.1⟩
  haveI : IsTrans (ℚ × ℚ) fun a b => a.1 ≤ b.1 := ⟨fun a b c => le_trans⟩
  exact List.sorted_insertionSort _ l

theorem sortBids_pairwise (l : List (ℚ × ℚ)) :
    (sortBids l).Pairwise fun a b => b.1 ≤ a.1 := by
  haveI : IsTotal (ℚ × ℚ) fun a b => b.1 ≤ a.1 := ⟨fun a b => le_total b.1 a.1⟩
  haveI : IsTrans (ℚ × ℚ) fun a b => b.1 ≤ a.1 := ⟨fun a b c h1 h2 => le_trans h2 h1⟩
  exact List.sorted_insertionSort _ l

theorem sortAsks_length (l : List (ℚ × ℚ)) : (sortAsks l).length = l.length :=
  List.length_insertionSort _ l

theorem sortBids_length (l : List (ℚ × ℚ)) : (sortBids l).length = l.length :=
  List.length_insertionSort _ l

theorem appendHistories_asks (ob : OrderBook) (now : ℚ) :
    (appendHistories ob now).asks = ob.asks := by
  unfold appendHistories
  split
  · rfl
  · split <;> rfl

theorem appendHistories_bids (ob : OrderBook) (now : ℚ) :
    (appendHistories ob now).bids = ob.bids := by
  unfold appendHistories
  split
  · rfl
  · split <;> rfl

theorem appendHistories_of_empty (ob : OrderBook) (now : ℚ)
    (h : ob.asks = [] ∨ ob.bids = []) : appendHistories ob now = ob := by
  unfold appendHistories
  rw [if_pos h]

theorem midOf_appendHistories (ob : OrderBook) (now : ℚ) :
    midOf (appendHistories ob now) = midOf ob := by
  unfold midOf
  rw [appendHistories_asks, appendHistories_bids]

theorem spreadOf_appendHistories (ob : OrderBook) (now : ℚ) :
    spreadOf (appendHistories ob now) = spreadOf ob := by
  unfold spreadOf
  rw [appendHistories_asks, appendHistories_bids]

theorem nearVolOf_appendHistories (ob : OrderBook) (now : ℚ) :
    nearVolOf (appendHistories ob now) = nearVolOf ob := by
  unfold nearVolOf midOf
  rw [appendHistories_asks, appendHistories_bids]

/-- On any failing `update`, the history series, the bids, and
`last_update_time` are untouched; the asks change only on a bid-parse
failure; and a timestamp failure happens before any mutation at all. -/
theorem update_err_spec (ob : OrderBook) (d : RawSnapshot) (now : ℚ)
    (res : OrderBook) (e : UpdateError) (h : ob.update d now = (res, some e)) :
    res.price_history = ob.price_history ∧
    res.spread_history = ob.spread_history ∧
    res.mid_price_history = ob.mid_price_history ∧
    res.volume_history = ob.volume_history ∧
    res.bids = ob.bids ∧
    res.last_update_time = ob.last_update_time ∧
    (e ≠ .badBidLevel → res.asks = ob.asks) ∧
    (e = .malformedTimestamp → res = ob) := by
  unfold OrderBook.update at h
  cases hts : d.timestamp with
  | malformed =>
    rw [hts] at h
    simp only [Prod.mk.injEq, Option.some.injEq] at h
    obtain ⟨rfl, rfl⟩ := h
    simp
  | valid t =>
    rw [hts] at h
    cases hsym : d.symbol with
    | none =>
      rw [hsym] at h
      simp only [Prod.mk.injEq, Option.some.injEq] at h
      obtain ⟨rfl, rfl⟩ := h
      simp
    | some sym =>
      rw [hsym] at h
      cases hex : d.exchange with
      | none =>
        rw [hex] at h
        simp only [Prod.mk.injEq, Option.some.injEq] at h
        obtain ⟨rfl, rfl⟩ := h
        simp
      | some ex =>
        rw [hex] at h
        cases hpa : parseLevels (d.asks.take MAX_ORDERBOOK_LEVELS) with
        | none =>
          rw [hpa] at h
          simp only [Prod.mk.injEq, Option.some.injEq] at h
          obtain ⟨rfl, rfl⟩ := h
          simp
        | some rawAsks =>
          rw [hpa] at h
          cases hpb : parseLevels (d.bids.take MAX_ORDERBOOK_LEVELS) with
          | none =>
            rw [hpb] at h
            simp only [Prod.mk.injEq, Option.some.injEq] at h
            obtain ⟨rfl, rfl⟩ := h
            simp
          | some rawBids =>
            rw [hpb] at h
            simp at h

/-- On any successful `update`, the result is `appendHistories` applied to
the fully re-parsed, truncated and sorted book. -/
theorem update_ok_spec (ob : OrderBook) (d : RawSnapshot) (now : ℚ)
    (res : OrderBook) (h : ob.update d now = (res, none)) :
    ∃ t sym ex rawAsks rawBids,
      d.timestamp = .valid t ∧ d.symbol = some sym ∧ d.exchange = some ex ∧
      parseLevels (d.asks.take MAX_ORDERBOOK_LEVELS) = some rawAsks ∧
      parseLevels (d.bids.take MAX_ORDERBOOK_LEVELS) = some rawBids ∧
      res = appendHistories
        { ob with
          timestamp := some t, symbol := sym, exchange := ex,
          asks := sortAsks rawAsks, bids := sortBids rawBids,
          last_update_time := now } now := by
  unfold OrderBook.update at h
  cases hts : d.timestamp with
  | malformed => rw [hts] at h; simp at h
  | valid t =>
    rw [hts] at h
    cases hsym : d.symbol with
    | none => rw [hsym] at h; simp at h
    | some sym =>
      rw [hsym] at h
      cases hex : d.exchange with
      | none => rw [hex] at h; simp at h
      | some ex =>
        rw [hex] at h
        cases hpa : parseLevels (d.asks.take MAX_ORDERBOOK_LEVELS) with
        | none => rw [hpa] at h; simp at h
        | some rawAsks =>
          rw [hpa] at h
          cases hpb : parseLevels (d.bids.take MAX_ORDERBOOK_LEVELS) with
          | none => rw [hpb] at h; simp at h
          | some rawBids =>
            rw [hpb] at h
            simp only [Prod.mk.injEq] at h
            exact ⟨t, sym, ex, rawAsks, rawBids, rfl, rfl, rfl, rfl, rfl, h.1.symm⟩

theorem appendHistories_histOK (ob : OrderBook) (now : ℚ) (h : histOK ob) :
    histOK (appendHistories ob now) := by
  obtain ⟨h1, h2, h3, h4⟩ := h
  unfold appendHistories
  split
  · exact ⟨h1, h2, h3, h4⟩
  · split <;> rename_i hlen <;>
      simp only [List.length_append, List.length_cons, List.length_nil] at hlen <;>
      simp only [histOK, takeLast_length, List.length_append, List.length_cons,
        List.length_nil] <;>
      omega

theorem update_histOK (ob : OrderBook) (d : RawSnapshot) (now : ℚ)
    (h : histOK ob) : histOK ((ob.update d now).1) := by
  rcases hu : ob.update d now with ⟨res, oe⟩
  cases oe with
  | none =>
    obtain ⟨t, sym, ex, rA, rB, _, _, _, _, _, rfl⟩ := update_ok_spec ob d now res hu
    exact appendHistories_histOK _ now h
  | some e =>
    obtain ⟨e1, e2, e3, e4, _⟩ := update_err_spec ob d now res e hu
    obtain ⟨h1, h2, h3, h4⟩ := h
    exact ⟨by rw [e1, e2]; exact h1, by rw [e1, e3]; exact h2,
      by rw [e1, e4]; exact h3, by rw [e1]; exact h4⟩

theorem reachable_histOK (ob : OrderBook) (h : Reachable ob) : histOK ob := by
  induction h with
  | init t0 => exact ⟨rfl, rfl, rfl, by simp [OrderBook.init]⟩
  | step d now _ ih => exact update_histOK _ d now ih

theorem reachable_iterUpd (d : RawSnapshot) (now : ℚ) :
    ∀ n, Reachable (iterUpd d now n)
  | 0 => .init 0
  | n + 1 => .step d now (reachable_iterUpd d now n)

theorem walkLevels_nonpos (levels : List (ℚ × ℚ)) (remaining executed cost : ℚ)
    (h : remaining ≤ 0) :
    walkLevels levels remaining executed cost = .ok (executed, cost) := by
  cases levels with
  | nil => rfl
  | cons a rest =>
    obtain ⟨p, q⟩ := a
    simp only [walkLevels, if_pos h]

/-- With positive prices, non-negative quantities and a side deep enough, the
walk consumes the full requested notional: the accumulated cost grows by
exactly `remaining` and the executed quantity strictly grows. -/
theorem walkLevels_consume :
    ∀ (levels : List (ℚ × ℚ)) (remaining executed cost : ℚ),
      (∀ l ∈ levels, 0 < l.1) → (∀ l ∈ levels, 0 ≤ l.2) →
      0 < remaining →
      remaining ≤ ((levels.map fun l => l.1 * l.2).sum) →
      ∃ e2, walkLevels levels remaining executed cost = .ok (e2, cost + remaining) ∧
        executed < e2
  | [], remaining, executed, cost, _, _, hr, hd => by
    simp only [List.map_nil, List.sum_nil] at hd
    exact absurd hd (not_le.mpr hr)
  | (p, q) :: rest, remaining, executed, cost, hp, hq, hr, hd => by
    have hp0 : 0 < p := hp (p, q) (List.mem_cons_self _ _)
    have hq0 : 0 ≤ q := hq (p, q) (List.mem_cons_self _ _)
    have hpne : p ≠ 0 := ne_of_gt hp0
    simp only [List.map_cons, List.sum_cons] at hd
    by_cases hc : remaining ≤ p * q
    · refine ⟨executed + remaining / p, ?_, ?_⟩
      · simp only [walkLevels, if_neg (not_le.mpr hr), if_neg hpne,
          min_eq_left hc, sub_self]
        rw [walkLevels_nonpos rest 0 _ _ le_rfl, div_mul_cancel₀ _ hpne]
      · exact lt_add_of_pos_right executed (div_pos hr hp0)
    · push_neg at hc
      have hr2 : 0 < remaining - p * q := sub_pos.mpr hc
      have hd2 : remaining - p * q ≤ ((rest.map fun l => l.1 * l.2).sum) := by
        linarith
      obtain ⟨e2, heq, hlt⟩ := walkLevels_consume rest (remaining - p * q)
        (executed + p * q / p) (cost + p * q / p * p)
        (fun l hl => hp l (List.mem_cons_of_mem _ hl))
        (fun l hl => hq l (List.mem_cons_of_mem _ hl)) hr2 hd2
      refine ⟨e2, ?_, ?_⟩
      · simp only [walkLevels, if_neg (not_le.mpr hr), if_neg hpne,
          min_eq_right (le_of_lt hc)]
        rw [heq, div_mul_cancel₀ _ hpne]
        congr 1
        ring_nf
      · refine lt_of_le_of_lt ?_ hlt
        have : 0 ≤ p * q / p := div_nonneg (mul_nonneg hp0.le hq0) hp0.le
        linarith

theorem except_bind_ok {ε α β : Type} (a : α) (f : α → Except ε β) :
    (Except.ok a : Except ε α) >>= f = f a := rfl

theorem except_bind_err {ε α β : Type} (e : ε) (f : α → Except ε β) :
    (Except.error e : Except ε α) >>= f = .error e := rfl

/-- One `update` with the wide-spread snapshot `snapZ`: the book is replaced
by its two levels and every history series gains one sample, the near-touch
volume sample being 0 (no level lies within 0.1% of the mid price 150). -/
theorem update_snapZ_spec (ob : OrderBook) (hlen : ob.price_history.length ≤ 299) :
    (ob.update snapZ 1).1 = { ob with
      timestamp := some 1, symbol := "BTC-USDT-SWAP", exchange := "OKX",
      asks := [(200, 5)], bids := [(100, 5)], last_update_time := 1,
      price_history := ob.price_history ++ [(1, 150)],
      spread_history := ob.spread_history ++ [(1, 100)],
      mid_price_history := ob.mid_price_history ++ [150],
      volume_history := ob.volume_history ++ [(1, 0)] } := by
  have h1 : (ob.update snapZ 1).1 = appendHistories { ob with
      timestamp := some 1, symbol := "BTC-USDT-SWAP", exchange := "OKX",
      asks := [(200, 5)], bids := [(100, 5)], last_update_time := 1 } 1 := rfl
  have hm : midOf { ob with
      timestamp := some 1, symbol := "BTC-USDT-SWAP", exchange := "OKX",
      asks := [(200, 5)], bids := [(100, 5)], last_update_time := (1 : ℚ) } = 150 := by
    norm_num [midOf, headPrice]
  have hsp : spreadOf { ob with
      timestamp := some 1, symbol := "BTC-USDT-SWAP", exchange := "OKX",
      asks := [(200, 5)], bids := [(100, 5)], last_update_time := (1 : ℚ) } = 100 := by
    norm_num [spreadOf, headPrice]
  have hnv : nearVolOf { ob with
      timestamp := some 1, symbol := "BTC-USDT-SWAP", exchange := "OKX",
      asks := [(200, 5)], bids := [(100, 5)], last_update_time := (1 : ℚ) } = 0 := by
    rw [nearVolOf]
    norm_num [midOf, headPrice, List.filter_cons, List.filter_nil, decide_eq_true_eq]
  rw [h1, appendHistories, if_neg (by simp), hm, hsp, hnv,
    if_neg (by simp only [List.length_append, List.length_cons, List.length_nil]; omega)]

theorem iterUpd_snapZ_base : ∀ n, n ≤ 299 →
    (iterUpd snapZ 1 n).price_history.length = n ∧
    (iterUpd snapZ 1 n).mid_price_history = List.replicate n 150 ∧
    (iterUpd snapZ 1 n).volume_history = List.replicate n (1, 0)
  | 0, _ => by simp [iterUpd, OrderBook.init]
  | n + 1, h => by
    obtain ⟨h1, h2, h3⟩ := iterUpd_snapZ_base n (by omega)
    have hs := update_snapZ_spec (iterUpd snapZ 1 n) (by omega)
    have he : iterUpd snapZ 1 (n + 1) = ((iterUpd snapZ 1 n).update snapZ 1).1 := rfl
    rw [he, hs]
    refine ⟨by simp [h1], ?_, ?_⟩
    · show (iterUpd snapZ 1 n).mid_price_history ++ [150] = List.replicate (n + 1) 150
      rw [h2, List.replicate_succ']
    · show (iterUpd snapZ 1 n).volume_history ++ [(1, 0)] = List.replicate (n + 1) (1, 0)
      rw [h3, List.replicate_succ']

/-- Unfolding of `calculate_fees` under a successful maker/taker estimate. -/
theorem calculate_fees_ok (ob : OrderBook) (q : ℚ) (tier : String) (m t : ℝ)
    (h : estimate_maker_taker_proportion ob q = .ok (m, t)) :
    calculate_fees ob q tier =
      .ok ((m / 100 * (((feeRates tier).1 : ℚ) : ℝ) +
        t / 100 * (((feeRates tier).2 : ℚ) : ℝ)) * 100) := by
  rw [calculate_fees, h, except_bind_ok]
  rfl

/-! ### Claim theorems -/

/-- C1, counterexample: a snapshot with a valid timestamp, symbol and
exchange but a non-numeric ask price makes `update` fail, yet the state is
NOT left exactly as it was: the symbol (among others) has already been
mutated.  Rejection is not atomic. -/
theorem c1_counterexample :
    ((OrderBook.init 0).update snapBadAsk 5).2 = some UpdateError.badAskLevel ∧
    ((OrderBook.init 0).update snapBadAsk 5).1.symbol = "BTC-USDT-SWAP" ∧
    (OrderBook.init 0).symbol = "" ∧
    ((OrderBook.init 0).update snapBadAsk 5).1 ≠ OrderBook.init 0 := by
  decide

/-- C1, amended: every malformed snapshot (malformed timestamp, missing
symbol/exchange, non-numeric price or quantity) makes `update` fail with an
error, and the failure never touches the history series, the bids or
`lastUpdateTime`; the asks are replaced only when the bid side fails to
parse; only a malformed timestamp (the first statement) leaves the whole
state unchanged — fields assigned before the failing statement (timestamp,
symbol, exchange, and for a bid-parse failure the raw asks) stay mutated. -/
theorem c1_amended (ob : OrderBook) (d : RawSnapshot) (now : ℚ)
    (res : OrderBook) (e : UpdateError) (h : ob.update d now = (res, some e)) :
    res.price_history = ob.price_history ∧
    res.spread_history = ob.spread_history ∧
    res.mid_price_history = ob.mid_price_history ∧
    res.volume_history = ob.volume_history ∧
    res.bids = ob.bids ∧
    res.last_update_time = ob.last_update_time ∧
    (e ≠ .badBidLevel → res.asks = ob.asks) ∧
    (e = .malformedTimestamp → res = ob) :=
  update_err_spec ob d now res e h

/-- C1, witness: the amended theorem applied to a malformed-timestamp
snapshot fed to a fresh book. -/
theorem c1_amended_witness :
    ((OrderBook.init 0).update snapMalTs 5).1.mid_price_history =
      (OrderBook.init 0).mid_price_history ∧
    ((OrderBook.init 0).update snapMalTs 5).1 = OrderBook.init 0 := by
  have h := c1_amended (OrderBook.init 0) snapMalTs 5
    ((OrderBook.init 0).update snapMalTs 5).1 UpdateError.malformedTimestamp (by decide)
  exact ⟨h.2.2.1, h.2.2.2.2.2.2.2 rfl⟩

/-- C2, code bug: after 11 perfectly valid two-sided snapshots whose spread
is wide (no level within 0.1% of mid), every near-touch-volume sample is 0,
so `daily_volume_estimate` is 0 and `calculate_market_impact` — and with it
`get_net_cost` — performs a division by zero (`ZeroDivisionError` in
Python), on a reachable state with quantity 100 > 0.  The claimed guards do
not exist in the code. -/
theorem c2_division_by_zero :
    Reachable (iterUpd snapZ 1 11) ∧
    (iterUpd snapZ 1 11).mid_price_history ≠ [] ∧
    daily_volume_estimate (iterUpd snapZ 1 11) ((10 : ℚ) ^ 10) = 0 ∧
    calculate_market_impact (iterUpd snapZ 1 11) (1 / 50) 100 ((10 : ℚ) ^ 10) =
      .error .divByZero ∧
    get_net_cost (iterUpd snapZ 1 11) (1 / 50) 100 "vip0" "buy" =
      .error .divByZero := by
  obtain ⟨hl11, hm11, hv11⟩ := iterUpd_snapZ_base 11 (by omega)
  have hs := update_snapZ_spec (iterUpd snapZ 1 10)
    (by obtain ⟨hl10, _, _⟩ := iterUpd_snapZ_base 10 (by omega); omega)
  have he : iterUpd snapZ 1 11 = ((iterUpd snapZ 1 10).update snapZ 1).1 := rfl
  have hA : (iterUpd snapZ 1 11).asks = [(200, 5)] := by rw [he, hs]
  have hB : (iterUpd snapZ 1 11).bids = [(100, 5)] := by rw [he, hs]
  have hmne : (iterUpd snapZ 1 11).mid_price_history ≠ [] := by
    rw [hm11]; simp
  have hdve : daily_volume_estimate (iterUpd snapZ 1 11) ((10 : ℚ) ^ 10) = 0 := by
    rw [daily_volume_estimate, if_pos (by rw [hv11]; simp)]
    rw [hv11]
    simp [takeLast]
  have himp : calculate_market_impact (iterUpd snapZ 1 11) (1 / 50) 100
      ((10 : ℚ) ^ 10) = .error .divByZero := by
    simp [calculate_market_impact, hmne, hdve]
  have hwalk : walkLevels [(200, 5)] 100 0 0 = .ok (1 / 2, 100) := by
    rw [walkLevels]
    rw [if_neg (by norm_num), if_neg (by norm_num)]
    rw [walkLevels_nonpos _ _ _ _ (by norm_num [min_def])]
    norm_num [min_def]
  have htl : "buy".toLower = "buy" := by with_unfolding_all rfl
  have hliq : (iterUpd snapZ 1 11).get_liquidity_at_level 100 "buy" =
      .ok (200, 1 / 2) := by
    rw [OrderBook.get_liquidity_at_level, if_neg (by rw [hA, hB]; simp)]
    rw [sideLevels, if_pos htl, hA, hwalk, except_bind_ok]
    norm_num
    rfl
  have hslip : calculate_slippage (iterUpd snapZ 1 11) 100 "buy" =
      .ok (100 / 3) := by
    rw [calculate_slippage, if_neg (by rw [hA, hB]; simp)]
    rw [hliq, except_bind_ok]
    simp only [hA, hB, headPrice]
    norm_num
    rfl
  have hest : estimate_maker_taker_proportion (iterUpd snapZ 1 11) 100 =
      .ok (100 - takerOfRel ((relative_size (iterUpd snapZ 1 11) 100 : ℚ) : ℝ),
        takerOfRel ((relative_size (iterUpd snapZ 1 11) 100 : ℚ) : ℝ)) := by
    rw [estimate_maker_taker_proportion, if_neg (by rw [hA, hB]; simp),
      if_neg (by norm_num)]
  have hf := calculate_fees_ok (iterUpd snapZ 1 11) 100 "vip0" _ _ hest
  refine ⟨reachable_iterUpd snapZ 1 11, hmne, hdve, himp, ?_⟩
  rw [get_net_cost, hslip, except_bind_ok, hf, except_bind_ok, himp, except_bind_err]

/-- C3, counterexample: a book whose ask side holds 200 USD of notional but
whose bid side is empty: `get_liquidity_at_level(100, buy)` returns `(0, 0)`
instead of consuming the 100 USD, because the code bails out when EITHER
side of the book is empty.  So the claim's "regardless of whether the
opposite side of the book is empty" is false. -/
theorem c3_counterexample :
    (0 : ℚ) < 100 ∧
    (100 : ℚ) ≤ ((bookOneSided.asks.map fun l => l.1 * l.2).sum) ∧
    bookOneSided.bids = [] ∧
    bookOneSided.get_liquidity_at_level 100 "buy" = .ok (0, 0) ∧
    (0 : ℚ) * 0 ≠ 100 := by
  with_unfolding_all decide

/-- C4, counterexample: with EXACTLY 10 near-touch-volume samples (each
equal to 1), the code takes the fallback branch (`market_cap * 0.05` =
5e8), not the claimed sample average × 86400 (= 86400): the code requires
MORE than 10 samples, not "at least 10". -/
theorem c4_counterexample :
    bookTen.volume_history.length = 10 ∧
    ((takeLast 10 bookTen.volume_history).map Prod.snd).sum / 10 * 86400 = 86400 ∧
    daily_volume_estimate bookTen ((10 : ℚ) ^ 10) = 5 * 10 ^ 8 ∧
    (86400 : ℚ) ≠ 5 * 10 ^ 8 := by
  norm_num [bookTen, daily_volume_estimate, takeLast, OrderBook.init,
    List.replicate, List.sum_cons]

/-- C9: on the book `asks=[(100,2),(101,3)]`, `bids=[(99,2),(98,3)]` (fed
through `update`), a 150 USD buy fills inside the first ask level with
average price 100 and executed quantity 1.5, and the slippage is exactly
`((100 / 99.5) - 1) * 100` with mid price `99.5`. -/
theorem c9_scenario :
    book9.asks = [(100, 2), (101, 3)] ∧
    book9.bids = [(99, 2), (98, 3)] ∧
    book9.get_liquidity_at_level 150 "buy" = .ok (100, 3 / 2) ∧
    (headPrice book9.asks + headPrice book9.bids) / 2 = 99.5 ∧
    calculate_slippage book9 150 "buy" = .ok ((100 / 99.5 - 1) * 100) := by
  with_unfolding_all decide

/-- C5: after every successful `update`, the ask levels are non-decreasing
in price, the bid levels are non-increasing in price, and both sides hold at
most 50 levels — whatever order the snapshot delivered them in. -/
theorem c5_sorted_truncated (ob : OrderBook) (d : RawSnapshot) (now : ℚ)
    (res : OrderBook) (h : ob.update d now = (res, none)) :
    res.asks.Pairwise (fun a b => a.1 ≤ b.1) ∧
    res.bids.Pairwise (fun a b => b.1 ≤ a.1) ∧
    res.asks.length ≤ MAX_ORDERBOOK_LEVELS ∧
    res.bids.length ≤ MAX_ORDERBOOK_LEVELS := by
  obtain ⟨t, sym, ex, rA, rB, _, _, _, hpa, hpb, rfl⟩ := update_ok_spec ob d now res h
  refine ⟨?_, ?_, ?_, ?_⟩
  · rw [appendHistories_asks]
    exact sortAsks_pairwise rA
  · rw [appendHistories_bids]
    exact sortBids_pairwise rB
  · rw [appendHistories_asks]
    show (sortAsks rA).length ≤ MAX_ORDERBOOK_LEVELS
    rw [sortAsks_length, parseLevels_length _ _ hpa]
    exact List.length_take_le _ _
  · rw [appendHistories_bids]
    show (sortBids rB).length ≤ MAX_ORDERBOOK_LEVELS
    rw [sortBids_length, parseLevels_length _ _ hpb]
    exact List.length_take_le _ _

/-- C5, witness: the successful update producing `book9`. -/
theorem c5_witness :
    book9.asks.Pairwise (fun a b => a.1 ≤ b.1) ∧
    book9.bids.Pairwise (fun a b => b.1 ≤ a.1) ∧
    book9.asks.length ≤ MAX_ORDERBOOK_LEVELS ∧
    book9.bids.length ≤ MAX_ORDERBOOK_LEVELS :=
  c5_sorted_truncated (OrderBook.init 0) snap9 1 book9 (by with_unfolding_all decide)

/-- C10: `update` truncates each raw side to its FIRST 50 entries in arrival
order and only then parses and sorts, so a 51-level snapshot whose best ask
(price 99) arrives last keeps the 50 worse-priced levels 100..149 and drops
the best one — the retained levels need not be the best-priced 50. -/
theorem c10_truncation :
    (∀ (ob : OrderBook) (d : RawSnapshot) (now : ℚ) (res : OrderBook),
      ob.update d now = (res, none) →
      ∃ rawAsks rawBids,
        parseLevels (d.asks.take MAX_ORDERBOOK_LEVELS) = some rawAsks ∧
        parseLevels (d.bids.take MAX_ORDERBOOK_LEVELS) = some rawBids ∧
        res.asks = sortAsks rawAsks ∧ res.bids = sortBids rawBids) ∧
    (upd51.asks.length = 50 ∧
      (Jval.num 99, Jval.num 1) ∈ snap51.asks ∧
      snap51.asks.length = 51 ∧
      ∀ l ∈ upd51.asks, 99 < l.1) := by
  constructor
  · intro ob d now res h
    obtain ⟨t, sym, ex, rA, rB, _, _, _, hpa, hpb, rfl⟩ := update_ok_spec ob d now res h
    exact ⟨rA, rB, hpa, hpb, appendHistories_asks _ _, appendHistories_bids _ _⟩
  · with_unfolding_all decide

/-- C10, witness: the general part applied to the 51-level snapshot. -/
theorem c10_witness :
    ∃ rawAsks rawBids,
      parseLevels (snap51.asks.take MAX_ORDERBOOK_LEVELS) = some rawAsks ∧
      parseLevels (snap51.bids.take MAX_ORDERBOOK_LEVELS) = some rawBids ∧
      upd51.asks = sortAsks rawAsks ∧ upd51.bids = sortBids rawBids :=
  c10_truncation.1 (OrderBook.init 0) snap51 0 upd51 (by with_unfolding_all decide)

/-- C6: on every reachable state the three history series have equal length,
never exceeding 300; a successful update appends exactly one entry to each
series precisely when both (truncated, parsed) sides are non-empty, evicting
the oldest entries so the latest 300 remain in arrival order, and appends
nothing when a side is empty (though the book itself is still replaced —
covered by the theorem of C10). -/
theorem c6_history_series (ob : OrderBook) (h : Reachable ob) :
    (ob.mid_price_history.length = ob.spread_history.length ∧
     ob.mid_price_history.length = ob.volume_history.length ∧
     ob.mid_price_history.length ≤ 300) ∧
    (∀ (d : RawSnapshot) (now : ℚ) (res : OrderBook), ob.update d now = (res, none) →
      ((res.asks ≠ [] ∧ res.bids ≠ []) →
        res.mid_price_history = takeLast 300 (ob.mid_price_history ++ [midOf res]) ∧
        res.spread_history = takeLast 300 (ob.spread_history ++ [(now, spreadOf res)]) ∧
        res.volume_history = takeLast 300 (ob.volume_history ++ [(now, nearVolOf res)]) ∧
        res.mid_price_history.length = min (ob.mid_price_history.length + 1) 300) ∧
      ((res.asks = [] ∨ res.bids = []) →
        res.mid_price_history = ob.mid_price_history ∧
        res.spread_history = ob.spread_history ∧
        res.volume_history = ob.volume_history)) := by
  obtain ⟨e1, e2, e3, e4⟩ := reachable_histOK ob h
  refine ⟨⟨by omega, by omega, by omega⟩, ?_⟩
  intro d now res hu
  obtain ⟨t, sym, ex, rA, rB, _, _, _, _, _, rfl⟩ := update_ok_spec ob d now res hu
  rw [midOf_appendHistories, spreadOf_appendHistories, nearVolOf_appendHistories]
  constructor
  · intro hne
    obtain ⟨hA, hB⟩ := hne
    rw [appendHistories_asks] at hA
    rw [appendHistories_bids] at hB
    rw [appendHistories, if_neg (by push_neg; exact ⟨hA, hB⟩)]
    by_cases hc : 300 <
      (ob.price_history ++
        [(now, midOf { ob with
          timestamp := some t, symbol := sym, exchange := ex,
          asks := sortAsks rA, bids := sortBids rB,
          last_update_time := now })]).length
    · rw [if_pos hc]
      simp only [List.length_append, List.length_cons, List.length_nil] at hc
      refine ⟨rfl, rfl, rfl, ?_⟩
      show (takeLast 300 (ob.mid_price_history ++ _)).length = _
      rw [takeLast_length]
      simp only [List.length_append, List.length_cons, List.length_nil]
      omega
    · rw [if_neg hc]
      simp only [List.length_append, List.length_cons, List.length_nil] at hc
      refine ⟨?_, ?_, ?_, ?_⟩
      · rw [takeLast_eq_self]
        simp only [List.length_append, List.length_cons, List.length_nil]
        omega
      · rw [takeLast_eq_self]
        simp only [List.length_append, List.length_cons, List.length_nil]
        omega
      · rw [takeLast_eq_self]
        simp only [List.length_append, List.length_cons, List.length_nil]
        omega
      · show (ob.mid_price_history ++ _).length = _
        simp only [List.length_append, List.length_cons, List.length_nil]
        omega
  · intro he
    rw [appendHistories_asks, appendHistories_bids] at he
    rw [appendHistories_of_empty _ _ he]
    exact ⟨rfl, rfl, rfl⟩

/-- C6, witness: the invariant on the freshly initialised book. -/
theorem c6_witness :
    (OrderBook.init 7).mid_price_history.length =
      (OrderBook.init 7).spread_history.length ∧
    (OrderBook.init 7).mid_price_history.length =
      (OrderBook.init 7).volume_history.length ∧
    (OrderBook.init 7).mid_price_history.length ≤ 300 :=
  (c6_history_series (OrderBook.init 7) (Reachable.init 7)).1

/-- C3, amended: for every book with BOTH sides non-empty whose targeted
side (asks for buy, bids for sell) has positive prices, non-negative
quantities and total notional at least `X > 0`, the walker fully consumes
`X`: it returns `(averagePrice, executedQuantity)` with
`executedQuantity * averagePrice = X` exactly (exact rational arithmetic),
and insufficient depth (not covered here) yields a partial fill rather than
an error.  (The original claim fails when the opposite side is empty: the
code then returns `(0, 0)` without consuming anything.) -/
theorem c3_amended (ob : OrderBook) (x : ℚ) (side : String)
    (hA : ob.asks ≠ []) (hB : ob.bids ≠ [])
    (hp : ∀ l ∈ sideLevels ob side, 0 < l.1)
    (hq : ∀ l ∈ sideLevels ob side, 0 ≤ l.2)
    (hx : 0 < x)
    (hd : x ≤ ((sideLevels ob side).map fun l => l.1 * l.2).sum) :
    ∃ avg qty, ob.get_liquidity_at_level x side = .ok (avg, qty) ∧
      0 < qty ∧ qty * avg = x := by
  obtain ⟨e2, hw, he⟩ := walkLevels_consume (sideLevels ob side) x 0 0 hp hq hx hd
  refine ⟨x / e2, e2, ?_, he, ?_⟩
  · rw [OrderBook.get_liquidity_at_level, if_neg (by push_neg; exact ⟨hA, hB⟩)]
    rw [hw, except_bind_ok]
    simp only [zero_add, if_pos he]
    rfl
  · rw [mul_comm, div_mul_cancel₀ _ (ne_of_gt he)]

/-- C3, witness: the amended theorem on a concrete two-sided book with 200
USD of ask depth and a 150 USD buy. -/
theorem c3_witness :
    ∃ avg qty, book3w.get_liquidity_at_level 150 "buy" = .ok (avg, qty) ∧
      0 < qty ∧ qty * avg = 150 :=
  c3_amended book3w 150 "buy" (by with_unfolding_all decide)
    (by with_unfolding_all decide) (by with_unfolding_all decide)
    (by with_unfolding_all decide) (by norm_num) (by with_unfolding_all decide)

/-- C4, amended: the sample-average branch of the daily volume estimate is
taken exactly when MORE than 10 near-touch-volume samples exist (not "at
least 10"); otherwise the fallback `market_cap * 0.05` is used; the impact
is 0 on an empty mid-price history; and when the history is non-empty and
the estimate non-zero, the impact equals
`sigma * sqrt(1/86400) * sqrt(quantityUSD / dailyVolumeEstimate) * 100`
with `sigma` the volatility if positive, else 0.02. -/
theorem c4_amended (ob : OrderBook) (volatility quantity market_cap : ℚ) :
    (10 < ob.volume_history.length →
      daily_volume_estimate ob market_cap =
        ((takeLast 10 ob.volume_history).map Prod.snd).sum / 10 * 86400) ∧
    (ob.volume_history.length ≤ 10 →
      daily_volume_estimate ob market_cap = market_cap * (5 / 100)) ∧
    (ob.mid_price_history = [] →
      calculate_market_impact ob volatility quantity market_cap = .ok 0) ∧
    (ob.mid_price_history ≠ [] → daily_volume_estimate ob market_cap ≠ 0 →
      calculate_market_impact ob volatility quantity market_cap =
        .ok ((if 0 < volatility then (volatility : ℝ) else 2 / 100) *
          Real.sqrt (1 / 86400) *
          Real.sqrt (((quantity / daily_volume_estimate ob market_cap : ℚ) : ℝ)) *
          100)) := by
  refine ⟨fun h => ?_, fun h => ?_, fun h => ?_, fun h1 h2 => ?_⟩
  · rw [daily_volume_estimate, if_pos h]
    have hlen : ((takeLast 10 ob.volume_history).map Prod.snd).length = 10 := by
      rw [List.length_map, takeLast_length]
      omega
    simp only [hlen]
    norm_num
  · rw [daily_volume_estimate, if_neg (by omega)]
  · rw [calculate_market_impact, if_pos h]
  · simp only [calculate_market_impact, h1, if_false, ite_false, if_neg h1, if_neg h2]
    have hcast : ((sigmaOf volatility : ℚ) : ℝ) =
        if 0 < volatility then (volatility : ℝ) else 2 / 100 := by
      rw [sigmaOf, apply_ite (fun q : ℚ => (q : ℝ))]
      norm_num
    rw [hcast]

/-- C4, witness: the fallback branch at a book with exactly 10 samples. -/
theorem c4_witness :
    daily_volume_estimate bookTen ((10 : ℚ) ^ 10) = (10 : ℚ) ^ 10 * (5 / 100) :=
  (c4_amended bookTen 0 100 ((10 : ℚ) ^ 10)).2.1
    (by norm_num [bookTen, OrderBook.init])

/-- C7: the maker/taker split always sums to 100; the empty book yields
exactly (maker 0, taker 100); on a non-empty book the taker share is the
logistic `100 / (1 + exp(relativeSize - 1))`, which is strictly decreasing
in the relative size and tends to 100 at -infinity and to 0 at +infinity. -/
theorem c7_maker_taker (ob : OrderBook) (quantity : ℚ) (hq : 0 < quantity) :
    (∃ m t, estimate_maker_taker_proportion ob quantity = .ok (m, t) ∧
      m + t = 100) ∧
    (ob.asks = [] ∨ ob.bids = [] →
      estimate_maker_taker_proportion ob quantity = .ok (0, 100)) ∧
    (¬(ob.asks = [] ∨ ob.bids = []) →
      estimate_maker_taker_proportion ob quantity =
        .ok (100 - takerOfRel ((relative_size ob quantity : ℚ) : ℝ),
          takerOfRel ((relative_size ob quantity : ℚ) : ℝ))) ∧
    (∀ r1 r2 : ℝ, r1 < r2 → takerOfRel r2 < takerOfRel r1) ∧
    Filter.Tendsto takerOfRel Filter.atBot (nhds 100) ∧
    Filter.Tendsto takerOfRel Filter.atTop (nhds 0) := by
  have hexp : ∀ r : ℝ, 0 < 1 + Real.exp (r - 1) := fun r => by positivity
  refine ⟨?_, ?_, ?_, ?_, ?_, ?_⟩
  · by_cases hempty : ob.asks = [] ∨ ob.bids = []
    · exact ⟨0, 100, by rw [estimate_maker_taker_proportion, if_pos hempty],
        by norm_num⟩
    · exact ⟨_, _, by rw [estimate_maker_taker_proportion, if_neg hempty,
        if_neg (ne_of_gt hq)], by ring⟩
  · intro hempty
    rw [estimate_maker_taker_proportion, if_pos hempty]
  · intro hne
    rw [estimate_maker_taker_proportion, if_neg hne, if_neg (ne_of_gt hq)]
  · intro r1 r2 hlt
    rw [takerOfRel, takerOfRel]
    exact div_lt_div_of_pos_left (by norm_num) (hexp r1)
      (add_lt_add_left (Real.exp_lt_exp.mpr (by linarith)) 1)
  · have h1 : Filter.Tendsto (fun r : ℝ => Real.exp (r - 1))
        Filter.atBot (nhds 0) := by
      have h0 := Real.tendsto_exp_atBot.comp
        (Filter.tendsto_atBot_add_const_right Filter.atBot (-1) (Filter.tendsto_id (α := ℝ)))
      simpa [sub_eq_add_neg, Function.comp_def] using h0
    have h2 : Filter.Tendsto (fun r : ℝ => 1 + Real.exp (r - 1))
        Filter.atBot (nhds 1) := by
      simpa using Filter.Tendsto.const_add 1 h1
    have h3 := Filter.Tendsto.div
      (tendsto_const_nhds :
        Filter.Tendsto (fun _ : ℝ => (100 : ℝ)) Filter.atBot (nhds 100))
      h2 one_ne_zero
    simp only [div_one] at h3
    have h4 : takerOfRel = fun r : ℝ => 100 / (1 + Real.exp (r - 1)) := rfl
    rw [h4]
    exact h3
  · have h1 : Filter.Tendsto (fun r : ℝ => Real.exp (r - 1))
        Filter.atTop Filter.atTop := by
      have h0 := Real.tendsto_exp_atTop.comp
        (Filter.tendsto_atTop_add_const_right Filter.atTop (-1) (Filter.tendsto_id (α := ℝ)))
      simpa [sub_eq_add_neg, Function.comp_def] using h0
    have h2 : Filter.Tendsto (fun r : ℝ => 1 + Real.exp (r - 1))
        Filter.atTop Filter.atTop :=
      Filter.tendsto_atTop_add_const_left Filter.atTop 1 h1
    have h3 := Filter.Tendsto.div_atTop
      (tendsto_const_nhds :
        Filter.Tendsto (fun _ : ℝ => (100 : ℝ)) Filter.atTop (nhds 100))
      h2
    have h4 : takerOfRel = fun r : ℝ => 100 / (1 + Real.exp (r - 1)) := rfl
    rw [h4]
    exact h3

/-- C7, witness: the empty fresh book gives exactly (maker 0, taker 100). -/
theorem c7_witness :
    estimate_maker_taker_proportion (OrderBook.init 0) 1 = .ok (0, 100) :=
  (c7_maker_taker (OrderBook.init 0) 1 one_pos).2.1 (Or.inl rfl)

/-- C8: a fee tier that is not (case-insensitively) vip0..vip5 yields
exactly the vip0 fee; the lookup only depends on the lower-cased tier
string; and the fee is
`(makerPct/100 * makerRate + takerPct/100 * takerRate) * 100` computed from
the same maker/taker split the report exposes. -/
theorem c8_fee_tier (ob : OrderBook) (quantity : ℚ) (fee_tier : String) :
    (fee_tier.toLower ∉ ["vip0", "vip1", "vip2", "vip3", "vip4", "vip5"] →
      calculate_fees ob quantity fee_tier = calculate_fees ob quantity "vip0") ∧
    (∀ t2 : String, fee_tier.toLower = t2.toLower →
      calculate_fees ob quantity fee_tier = calculate_fees ob quantity t2) ∧
    (∀ m t : ℝ, estimate_maker_taker_proportion ob quantity = .ok (m, t) →
      calculate_fees ob quantity fee_tier =
        .ok ((m / 100 * (((feeRates fee_tier).1 : ℚ) : ℝ) +
          t / 100 * (((feeRates fee_tier).2 : ℚ) : ℝ)) * 100)) := by
  have hcong : ∀ t1 t2 : String, feeRates t1 = feeRates t2 →
      calculate_fees ob quantity t1 = calculate_fees ob quantity t2 := by
    intro t1 t2 hr
    simp only [calculate_fees, hr]
  refine ⟨?_, ?_, ?_⟩
  · intro hmem
    simp only [List.mem_cons, List.not_mem_nil, or_false, not_or] at hmem
    obtain ⟨n0, n1, n2, n3, n4, n5⟩ := hmem
    apply hcong
    rw [feeRates, feeRates,
      (by with_unfolding_all rfl : "vip0".toLower = "vip0")]
    rw [feeRatesLower, feeRatesLower]
    simp [n0, n1, n2, n3, n4, n5]
  · intro t2 ht
    apply hcong
    rw [feeRates, feeRates, ht]
  · intro m t hmt
    exact calculate_fees_ok ob quantity fee_tier m t hmt

/-- C8, witness: an unknown tier string priced like vip0 on a fresh book. -/
theorem c8_witness :
    calculate_fees (OrderBook.init 0) 1 "platinum" =
      calculate_fees (OrderBook.init 0) 1 "vip0" :=
  (c8_fee_tier (OrderBook.init 0) 1 "platinum").1 (by with_unfolding_all decide)

end GoQuant
